import Mathlib

/-
Verification of the static-api repository core: the GitHub API layer
(src/app/api.py) and the generator dispatch loop (src/main.py).

The Python code is shallowly embedded: JSON responses become Lean
structures, Python dicts built and mutated by the code become ordered
association lists, and the effectful pipeline of get_contributor
(decorate with the sort key, delete the key from each dict, stable
reverse sort) is embedded exactly as CPython executes it.
-/

/-- A primitive JSON field value stored in one of the produced dicts. -/
inductive FieldVal where
  | str (s : String)
  | int (n : Int)
deriving DecidableEq, Repr

/-- A Python dict as built by the transform functions: an insertion-ordered
association list from string keys to field values. -/
abbrev PyDict := List (String × FieldVal)

/-- Dict subscript read: the value at the first matching key, none on KeyError. -/
def pyLookup (k : String) (d : PyDict) : Option FieldVal :=
  (d.find? (fun entry => entry.1 == k)).map Prod.snd

/-- Python del d[k]: remove the (unique) entry with the given key. -/
def pyDel (k : String) (d : PyDict) : PyDict :=
  d.eraseP (fun entry => entry.1 == k)

/-- Read a field value as a Python int, none when it is not an int. -/
def FieldVal.asInt : FieldVal → Option Int
  | .int n => some n
  | _ => none

/-- One element of the raw JSON array returned by the contributors endpoint. -/
structure RawContributor where
  login : String
  avatar_url : String
  html_url : String
  contributions : Int
deriving DecidableEq, Repr

/-- One element of the raw JSON array returned by the members endpoint. -/
structure RawMember where
  login : String
  avatar_url : String
  html_url : String
deriving DecidableEq, Repr

/-- One asset object inside a raw release JSON object. -/
structure RawAsset where
  name : String
  browser_download_url : String
deriving DecidableEq, Repr

/-- A raw release JSON object as returned by the releases endpoints. -/
structure RawRelease where
  tag_name : String
  prerelease : Bool
  published_at : String
  assets : List RawAsset
deriving DecidableEq, Repr

/-- A transformed asset dict: the fields written by transform_release. -/
structure Asset where
  name : String
  download_url : String
deriving DecidableEq, Repr

/-- A transformed release dict: the fields written by transform_release. -/
structure Release where
  tag : String
  prerelease : Bool
  published_at : String
  assets : List Asset
deriving DecidableEq, Repr

/-- The rate object inside the rate_limit endpoint payload. -/
structure Rate where
  remaining : Int
deriving DecidableEq, Repr

/-- The raw payload of the rate_limit endpoint. -/
structure RateLimit where
  rate : Rate
deriving DecidableEq, Repr

/-- Result of GitHubApi.get_release: a single dict or a list, depending on
the all flag (the union return type dict | list of the Python code). -/
inductive ReleaseResult where
  | one (release : Release)
  | many (releases : List Release)
deriving DecidableEq, Repr

/- ## Model of CPython list.sort(key=..., reverse=True)

CPython computes the key of every element once, in list order; with
reverse=True it then reverses the list, runs its stable ascending sort on
the keys, and reverses the result again (listobject.c).  The stable
ascending sort is modelled by Mathlib's insertionSort, which is stable. -/

/-- Stable ascending sort by an integer key, modelling the stable sort at
the core of CPython list.sort. -/
def stableSortAsc {α : Type} (key : α → Int) (l : List α) : List α :=
  List.insertionSort (fun x y => key x ≤ key y) l

/-- CPython list.sort(key=..., reverse=True): reverse, stable ascending
sort by key, reverse again. -/
def pySortRev {α : Type} (key : α → Int) (l : List α) : List α :=
  (stableSortAsc key l.reverse).reverse

/- ## src/app/api.py -/

/-- Nested helper transform_contributor of GitHubApi.get_contributor:
builds the dict with keys username, avatar, link, contributions. -/
def transform_contributor (contributor : RawContributor) : PyDict :=
  [("username", FieldVal.str contributor.login),
   ("avatar", FieldVal.str contributor.avatar_url),
   ("link", FieldVal.str contributor.html_url),
   ("contributions", FieldVal.int contributor.contributions)]

/-- Nested helper sort_and_delete_key of GitHubApi.get_contributor: the
sort key function.  It reads the contributions value, deletes that key
from the dict (a side effect on the element), and returns the value as
the sort key.  Reading a missing key or a non-int value is a Python
error, modelled as none. -/
def sort_and_delete_key (contributor : PyDict) : Option (Int × PyDict) := do
  let v ← pyLookup "contributions" contributor
  let contributions ← v.asInt
  pure (contributions, pyDel "contributions" contributor)

/-- Run an Option-valued function over a list, in order, failing on the
first failure: the effect order of CPython computing sort keys. -/
def mapOption {α β : Type} (f : α → Option β) : List α → Option (List β)
  | [] => some []
  | a :: as => do
    let b ← f a
    let bs ← mapOption f as
    pure (b :: bs)

/-- GitHubApi.get_contributor on the raw JSON array of the contributors
endpoint: map transform_contributor, then contributors.sort(
key=sort_and_delete_key, reverse=True).  CPython evaluates the key
function once per element in list order (mutating each dict), sorts the
key-decorated elements by key alone, and keeps the payloads. -/
def get_contributor (contributors : List RawContributor) : Option (List PyDict) := do
  let transformed := contributors.map transform_contributor
  let decorated ← mapOption sort_and_delete_key transformed
  pure ((pySortRev Prod.fst decorated).map Prod.snd)

/-- The decorated form of one contributor after the key function ran on
its transformed dict: the sort key paired with the stripped dict. -/
def decorate_contributor (c : RawContributor) : Int × PyDict :=
  (c.contributions, pyDel "contributions" (transform_contributor c))

/-- Nested helper transform_release of GitHubApi.get_release. -/
def transform_release (release : RawRelease) : Release :=
  { tag := release.tag_name
    prerelease := release.prerelease
    published_at := release.published_at
    assets := release.assets.map
      (fun asset => { name := asset.name, download_url := asset.browser_download_url }) }

/-- URL of the all-releases endpoint, as formatted by get_release. -/
def releasesUrl (repository : String) : String :=
  "https://api.github.com/repos/" ++ repository ++ "/releases"

/-- Python str() of a bool, as interpolated into an f-string. -/
def pyBoolStr : Bool → String
  | true => "True"
  | false => "False"

/-- URL of the latest-release endpoint, as formatted by get_release: the
prerelease argument is interpolated into the query string. -/
def latestReleaseUrl (repository : String) (prerelease : Bool) : String :=
  "https://api.github.com/repos/" ++ repository ++ "/releases/latest?prerelease="
    ++ pyBoolStr prerelease

/-- The HTTP transport, modelled as an oracle from the requested URL to
the parsed JSON body, one channel per response shape used by get_release. -/
structure HttpGet where
  releases : String → List RawRelease
  latest : String → RawRelease

/-- The URL that GitHubApi.get_release requests for given arguments. -/
def get_release_request (repository : String) (all prerelease : Bool) : String :=
  if all then releasesUrl repository else latestReleaseUrl repository prerelease

/-- GitHubApi.get_release: with all true, fetch the releases collection and
transform each entry into a list; otherwise fetch the latest release
(passing the prerelease flag in the query string) and transform it. -/
def get_release (http : HttpGet) (repository : String) (all prerelease : Bool) : ReleaseResult :=
  if all then
    ReleaseResult.many ((http.releases (releasesUrl repository)).map transform_release)
  else
    ReleaseResult.one (transform_release (http.latest (latestReleaseUrl repository prerelease)))

/-- Nested helper transform_team_member of GitHubApi.get_members. -/
def transform_team_member (member : RawMember) : PyDict :=
  [("username", FieldVal.str member.login),
   ("avatar", FieldVal.str member.avatar_url),
   ("link", FieldVal.str member.html_url)]

/-- GitHubApi.get_members on the raw JSON array of the members endpoint:
map transform_team_member over it, in order, with no sort. -/
def get_members (members : List RawMember) : List PyDict :=
  members.map transform_team_member

/-- GitHubApi.is_rate_limited on the raw rate_limit payload: the
remaining count equals zero. -/
def is_rate_limited (payload : RateLimit) : Bool :=
  payload.rate.remaining == 0

/-- The state an Api object holds after construction succeeds. -/
structure ApiState where
  api_key : Option String
deriving DecidableEq, Repr

/-- Api.__init__: run the rate-limit check on the rate_limit payload the
check reads; when it reports exhaustion, raise at once (no ApiState is
produced, so the api_key assignment never happens); otherwise store the
api_key. -/
def Api.init (rate_limit_payload : RateLimit) (api_key : Option String) :
    Except String ApiState :=
  if is_rate_limited rate_limit_payload then
    Except.error "Api is rate limited."
  else
    Except.ok { api_key := api_key }

/- ## src/main.py -/

/-- One configured API entry: an identifier for the rest of the config
dict plus the list of generator names under it. -/
structure ApiEntry where
  repository : String
  generators : List String
deriving DecidableEq, Repr

/-- One performed call generator.generate(api, output), recording which
generator was resolved, under which configured name, and its arguments. -/
structure GenCall (γ δ : Type) where
  generator : γ
  gen_name : String
  api : ApiEntry
  output : δ
deriving DecidableEq, Repr

/-- The driver loop of src/main.py: for each configured api entry, for
each generator name under it, resolve the generator from the provider;
on none, continue; otherwise call generate(api, output).  The result is
the sequence of performed generate calls in execution order. -/
def driver_loop {γ δ : Type} (apis : List ApiEntry) (api_provider : String → Option γ)
    (output : δ) : List (GenCall γ δ) :=
  apis.flatMap fun api =>
    api.generators.filterMap fun generator_name =>
      (api_provider generator_name).map fun generator =>
        { generator := generator, gen_name := generator_name, api := api, output := output }

/-- All (api entry, generator name) pairs of a configuration, in
configuration order. -/
def config_pairs (apis : List ApiEntry) : List (ApiEntry × String) :=
  apis.flatMap fun api =>
    api.generators.map fun generator_name => (api, generator_name)

/- ## Concrete inputs used by the witnesses and the counterexample -/

/-- Two raw contributors with distinct contribution counts. -/
def rawContribEx : List RawContributor :=
  [{ login := "a", avatar_url := "ua", html_url := "ha", contributions := 5 },
   { login := "b", avatar_url := "ub", html_url := "hb", contributions := 9 }]

/-- A transport whose releases collection holds one release with an empty
tag_name. -/
def httpEmptyTag : HttpGet :=
  { releases := fun _ => [{ tag_name := "", prerelease := false, published_at := "", assets := [] }]
    latest := fun _ => { tag_name := "", prerelease := false, published_at := "", assets := [] } }

/-- A transport with one release carrying one asset, for the amended
get_release all=True claim. -/
def httpRelC2 : HttpGet :=
  { releases := fun _ =>
      [{ tag_name := "v1.0", prerelease := true, published_at := "2022",
         assets := [{ name := "app.apk", browser_download_url := "dl" }] }]
    latest := fun _ => { tag_name := "v1.0", prerelease := true, published_at := "2022", assets := [] } }

/-- A transport whose latest release is not a prerelease. -/
def httpRelC3 : HttpGet :=
  { releases := fun _ => []
    latest := fun _ => { tag_name := "v2.0", prerelease := false, published_at := "2023", assets := [] } }

/-- One raw member. -/
def rawMemberEx : List RawMember :=
  [{ login := "m", avatar_url := "um", html_url := "hm" }]

/-- A configuration with one entry listing an unknown generator name
before a known one. -/
def apisEx : List ApiEntry :=
  [{ repository := "revanced/revanced-manager", generators := ["unknown", "badge"] }]

/-- A provider resolving only the name badge. -/
def providerEx : String → Option String :=
  fun name => if name == "badge" then some "badgeGen" else none

/- ## Helper lemmas -/

/-- Evaluating the key function on a freshly transformed contributor dict
always succeeds and yields the decorated pair. -/
theorem sort_delete_transform (c : RawContributor) :
    sort_and_delete_key (transform_contributor c) = some (decorate_contributor c) := rfl

/-- The stripped dict of a decorated contributor, spelt out. -/
theorem decorate_contributor_snd (c : RawContributor) :
    (decorate_contributor c).2 =
      [("username", FieldVal.str c.login),
       ("avatar", FieldVal.str c.avatar_url),
       ("link", FieldVal.str c.html_url)] := rfl

/-- Decorating the whole transformed list never fails. -/
theorem mapOption_transform (raw : List RawContributor) :
    mapOption sort_and_delete_key (raw.map transform_contributor) =
      some (raw.map decorate_contributor) := by
  induction raw with
  | nil => rfl
  | cons c cs ih =>
      simp only [List.map_cons, mapOption, sort_delete_transform, ih, Option.bind_eq_bind,
        Option.some_bind, Option.pure_def]

/-- get_contributor never fails and equals the stable reverse sort of the
decorated contributors, with the keys stripped off. -/
theorem get_contributor_eq (raw : List RawContributor) :
    get_contributor raw =
      some ((pySortRev Prod.fst (raw.map decorate_contributor)).map Prod.snd) := by
  simp only [get_contributor, mapOption_transform, Option.bind_eq_bind, Option.some_bind,
    Option.pure_def]

/-- pySortRev permutes its input. -/
theorem pySortRev_perm {α : Type} (key : α → Int) (l : List α) :
    (pySortRev key l).Perm l := by
  refine (List.reverse_perm _).trans ?_
  exact (List.perm_insertionSort _ _).trans (List.reverse_perm l)

/-- pySortRev sorts its input into nonincreasing key order. -/
theorem pySortRev_sorted {α : Type} (key : α → Int) (l : List α) :
    (pySortRev key l).Pairwise (fun a b => key b ≤ key a) := by
  have h : (stableSortAsc key l.reverse).Pairwise (fun x y => key x ≤ key y) :=
    @List.sorted_insertionSort α (fun x y => key x ≤ key y) _
      ⟨fun a b => Int.le_total (key a) (key b)⟩
      ⟨fun _ _ _ hab hbc => le_trans hab hbc⟩ l.reverse
  exact List.pairwise_reverse.mpr h

/-- Filtering for one key value commutes with orderedInsert: the inserted
element lands in front of the equal-key block, every element it jumped
over having a strictly smaller key. -/
theorem filter_orderedInsert_key {α : Type} (key : α → Int) (n : Int) (a : α) (l : List α) :
    (List.orderedInsert (fun x y => key x ≤ key y) a l).filter (fun x => key x == n) =
      if key a = n then a :: l.filter (fun x => key x == n)
      else l.filter (fun x => key x == n) := by
  induction l with
  | nil =>
      simp only [List.orderedInsert, List.filter_cons, List.filter_nil]
      by_cases h : key a = n
      · simp [h]
      · simp [h]
  | cons b bs ih =>
      rw [List.orderedInsert]
      by_cases hab : key a ≤ key b
      · rw [if_pos hab]
        by_cases h : key a = n
        · simp [List.filter_cons, h]
        · simp [List.filter_cons, h]
      · rw [if_neg hab, List.filter_cons, List.filter_cons]
        have hba : key b < key a := not_le.mp hab
        by_cases h : key a = n
        · have hbn : key b ≠ n := by omega
          simp only [h, if_pos rfl] at ih ⊢
          simp [hbn, ih]
        · simp only [h, if_neg h] at ih ⊢
          by_cases hbn : key b = n
          · simp [hbn, ih]
          · simp [hbn, ih]

/-- Filtering for one key value commutes with the stable ascending sort:
the relative order of equal-key elements is preserved. -/
theorem filter_stableSortAsc {α : Type} (key : α → Int) (n : Int) (l : List α) :
    (stableSortAsc key l).filter (fun x => key x == n) = l.filter (fun x => key x == n) := by
  induction l with
  | nil => rfl
  | cons a l ih =>
      rw [stableSortAsc, List.insertionSort]
      rw [show List.insertionSort (fun x y => key x ≤ key y) l = stableSortAsc key l from rfl]
      rw [filter_orderedInsert_key, ih, List.filter_cons]
      by_cases h : key a = n
      · simp [h]
      · simp [h]

/-- Filtering for one key value commutes with pySortRev: the reverse sort
of CPython keeps equal-key elements in their original relative order. -/
theorem pySortRev_filter {α : Type} (key : α → Int) (n : Int) (l : List α) :
    (pySortRev key l).filter (fun x => key x == n) = l.filter (fun x => key x == n) := by
  rw [pySortRev, List.filter_reverse, filter_stableSortAsc, List.filter_reverse,
    List.reverse_reverse]

/- ## Claim theorems -/

/-- C1: for every raw contributor list with at least 2 entries and pairwise
distinct contribution counts, get_contributor succeeds and returns the
transformed entries in strictly descending order of their original
contribution count, and every returned dict has exactly the keys
username, avatar and link (the contributions key is gone). -/
theorem get_contributor_sorted_desc_and_stripped (raw : List RawContributor)
    (_hlen : 2 ≤ raw.length)
    (hdist : raw.Pairwise (fun a b => a.contributions ≠ b.contributions)) :
    ∃ dec : List (Int × PyDict),
      get_contributor raw = some (dec.map Prod.snd) ∧
      dec.Perm (raw.map decorate_contributor) ∧
      dec.Pairwise (fun a b => b.1 < a.1) ∧
      ∀ d ∈ dec.map Prod.snd, d.map Prod.fst = ["username", "avatar", "link"] := by
  refine ⟨pySortRev Prod.fst (raw.map decorate_contributor), get_contributor_eq raw,
    pySortRev_perm _ _, ?_, ?_⟩
  · have hsorted := pySortRev_sorted Prod.fst (raw.map decorate_contributor)
    have hdist2 : (raw.map decorate_contributor).Pairwise
        (fun a b : Int × PyDict => a.1 ≠ b.1) := by
      rw [List.pairwise_map]
      exact hdist
    have hdist3 : (pySortRev Prod.fst (raw.map decorate_contributor)).Pairwise
        (fun a b : Int × PyDict => a.1 ≠ b.1) :=
      ((pySortRev_perm Prod.fst (raw.map decorate_contributor)).pairwise_iff
        (fun hab => Ne.symm hab)).mpr hdist2
    exact (hsorted.and hdist3).imp (fun h => lt_of_le_of_ne h.1 (Ne.symm h.2))
  · intro d hd
    rw [List.mem_map] at hd
    obtain ⟨p, hp, rfl⟩ := hd
    have hmem : p ∈ raw.map decorate_contributor :=
      ((pySortRev_perm Prod.fst (raw.map decorate_contributor)).mem_iff).mp hp
    rw [List.mem_map] at hmem
    obtain ⟨c, _, rfl⟩ := hmem
    rw [decorate_contributor_snd]
    rfl

/-- Witness for C1 at the concrete two-element contributor list. -/
theorem get_contributor_sorted_desc_and_stripped_witness :
    2 ≤ rawContribEx.length ∧
    rawContribEx.Pairwise (fun a b => a.contributions ≠ b.contributions) ∧
    ∃ dec : List (Int × PyDict),
      get_contributor rawContribEx = some (dec.map Prod.snd) ∧
      dec.Perm (rawContribEx.map decorate_contributor) ∧
      dec.Pairwise (fun a b => b.1 < a.1) ∧
      ∀ d ∈ dec.map Prod.snd, d.map Prod.fst = ["username", "avatar", "link"] :=
  ⟨by decide, by decide,
    get_contributor_sorted_desc_and_stripped rawContribEx (by decide) (by decide)⟩

/-- C10: the descending sort in get_contributor is stable: for every key
value, the entries carrying that contribution count appear in the output
of the sort in the same relative order as in the decorated input built
from the raw response. -/
theorem get_contributor_sort_stable (raw : List RawContributor) (n : Int) :
    get_contributor raw =
      some ((pySortRev Prod.fst (raw.map decorate_contributor)).map Prod.snd) ∧
    (pySortRev Prod.fst (raw.map decorate_contributor)).filter (fun p => p.1 == n) =
      (raw.map decorate_contributor).filter (fun p => p.1 == n) :=
  ⟨get_contributor_eq raw, pySortRev_filter Prod.fst n (raw.map decorate_contributor)⟩

/-- C2 counterexample: with a raw payload holding one release whose
tag_name is the empty string, get_release all=True returns an entry
whose tag is empty, refuting the non-empty-tag part of the claim as
stated. -/
theorem get_release_all_empty_tag_counterexample :
    get_release httpEmptyTag "revanced/revanced-manager" true false =
      ReleaseResult.many [{ tag := "", prerelease := false, published_at := "", assets := [] }] ∧
    ({ tag := "", prerelease := false, published_at := "", assets := [] } : Release).tag = "" :=
  ⟨rfl, rfl⟩

/-- C2 (amended): get_release with all true returns one transformed entry
per raw release, preserving input order; each entry carries the raw
tag_name as its tag (hence a non-empty tag exactly when the raw tag_name
is non-empty) and an assets list of the same length as the raw assets,
each asset keeping its name and download URL at the same position. -/
theorem get_release_all_transforms_each (http : HttpGet) (repository : String)
    (prerelease : Bool) :
    get_release http repository true prerelease =
      ReleaseResult.many ((http.releases (releasesUrl repository)).map transform_release) ∧
    ((http.releases (releasesUrl repository)).map transform_release).length =
      (http.releases (releasesUrl repository)).length ∧
    ∀ (i : Nat) (raw : RawRelease), (http.releases (releasesUrl repository))[i]? = some raw →
      ((http.releases (releasesUrl repository)).map transform_release)[i]? =
        some (transform_release raw) ∧
      (transform_release raw).tag = raw.tag_name ∧
      (transform_release raw).assets.length = raw.assets.length ∧
      ∀ j : Nat, (transform_release raw).assets[j]? =
        (raw.assets[j]?).map (fun asset => Asset.mk asset.name asset.browser_download_url) := by
  refine ⟨rfl, by simp, fun i raw h => ⟨?_, rfl, ?_, fun j => ?_⟩⟩
  · simp [h]
  · simp [transform_release]
  · simp [transform_release]

/-- Witness for the amended C2 at a concrete one-release payload. -/
theorem get_release_all_transforms_each_witness :
    ((httpRelC2.releases (releasesUrl "revanced/revanced-manager")).map transform_release)[0]? =
      some (transform_release
        { tag_name := "v1.0", prerelease := true, published_at := "2022",
          assets := [{ name := "app.apk", browser_download_url := "dl" }] }) :=
  ((get_release_all_transforms_each httpRelC2 "revanced/revanced-manager" false).2.2 0
    { tag_name := "v1.0", prerelease := true, published_at := "2022",
      assets := [{ name := "app.apk", browser_download_url := "dl" }] } rfl).1

/-- C3: with all false and prerelease false, get_release returns a single
transformed entry, namely the one raw release object the latest endpoint
returned; when a non-prerelease entry exists in that raw payload (the
payload is exactly one release object, so this says the object itself is
not flagged prerelease) the returned entry is not flagged prerelease. -/
theorem get_release_latest_single_not_prerelease (http : HttpGet) (repository : String) :
    get_release http repository false false =
      ReleaseResult.one (transform_release (http.latest (latestReleaseUrl repository false))) ∧
    ((http.latest (latestReleaseUrl repository false)).prerelease = false →
      ∀ rel : Release, get_release http repository false false = ReleaseResult.one rel →
        rel.prerelease = false) := by
  refine ⟨rfl, fun hp rel hrel => ?_⟩
  rw [show get_release http repository false false =
      ReleaseResult.one (transform_release (http.latest (latestReleaseUrl repository false)))
    from rfl] at hrel
  injection hrel with h
  rw [← h]
  simp [transform_release, hp]

/-- Witness for C3 at a transport whose latest release is not a prerelease. -/
theorem get_release_latest_single_not_prerelease_witness :
    get_release httpRelC3 "revanced/revanced-manager" false false =
      ReleaseResult.one { tag := "v2.0", prerelease := false, published_at := "2023", assets := [] } ∧
    Release.prerelease
      { tag := "v2.0", prerelease := false, published_at := "2023", assets := [] } = false := by
  have h := get_release_latest_single_not_prerelease httpRelC3 "revanced/revanced-manager"
  exact ⟨h.1, h.2 rfl _ h.1⟩

/-- C8: the shape of the result of get_release is decided by the all flag
alone: all true always yields a list of transformed releases, all false
always yields a single transformed release. -/
theorem get_release_shape_by_all_flag (http : HttpGet) (repository : String)
    (prerelease : Bool) :
    (∃ rels : List Release,
      get_release http repository true prerelease = ReleaseResult.many rels) ∧
    (∃ rel : Release, get_release http repository false prerelease = ReleaseResult.one rel) :=
  ⟨⟨_, rfl⟩, ⟨_, rfl⟩⟩

/-- C9: in the all=True branch the prerelease argument influences neither
the requested URL nor the returned value: the results for any two values
of the flag coincide. -/
theorem get_release_all_ignores_prerelease (http : HttpGet) (repository : String)
    (p1 p2 : Bool) :
    get_release http repository true p1 = get_release http repository true p2 ∧
    get_release_request repository true p1 = get_release_request repository true p2 :=
  ⟨rfl, rfl⟩

/-- C4: is_rate_limited returns true exactly when the remaining count of
the raw rate-limit payload is zero, and false for every positive count. -/
theorem is_rate_limited_iff_remaining_zero (payload : RateLimit) :
    (is_rate_limited payload = true ↔ payload.rate.remaining = 0) ∧
    (0 < payload.rate.remaining → is_rate_limited payload = false) := by
  constructor
  · simp [is_rate_limited]
  · intro h
    simp only [is_rate_limited, beq_eq_false_iff_ne, ne_eq]
    omega

/-- Witness for C4 at a payload with three remaining requests. -/
theorem is_rate_limited_iff_remaining_zero_witness :
    (0 : Int) < (RateLimit.mk (Rate.mk 3)).rate.remaining ∧
    is_rate_limited (RateLimit.mk (Rate.mk 3)) = false :=
  ⟨by decide, (is_rate_limited_iff_remaining_zero (RateLimit.mk (Rate.mk 3))).2 (by decide)⟩

/-- C5: construction of the Api raises exactly when the rate-limit check
on the payload it reads reports exhaustion; in that case the raised
error is produced at once and no ApiState is built, so the api_key
assignment that follows the check in the constructor never happens. -/
theorem api_init_raises_iff_rate_limited (payload : RateLimit) (api_key : Option String) :
    ((Api.init payload api_key).isOk = false ↔ is_rate_limited payload = true) ∧
    (is_rate_limited payload = true →
      Api.init payload api_key = Except.error "Api is rate limited.") ∧
    (is_rate_limited payload = false →
      Api.init payload api_key = Except.ok { api_key := api_key }) := by
  unfold Api.init
  cases h : is_rate_limited payload <;> simp [Except.isOk, Except.toBool]

/-- Witness for C5 at an exhausted payload. -/
theorem api_init_raises_iff_rate_limited_witness :
    is_rate_limited (RateLimit.mk (Rate.mk 0)) = true ∧
    Api.init (RateLimit.mk (Rate.mk 0)) none = Except.error "Api is rate limited." :=
  ⟨by decide,
    (api_init_raises_iff_rate_limited (RateLimit.mk (Rate.mk 0)) none).2.1 (by decide)⟩

/-- C7: get_members returns one transformed entry per raw member in the
raw order, each dict holding exactly the keys username, avatar and link,
with the values taken from the raw login, avatar_url and html_url. -/
theorem get_members_preserves_order_and_keys (raw : List RawMember) :
    (get_members raw).length = raw.length ∧
    (∀ (i : Nat) (m : RawMember), raw[i]? = some m →
      (get_members raw)[i]? =
        some [("username", FieldVal.str m.login),
              ("avatar", FieldVal.str m.avatar_url),
              ("link", FieldVal.str m.html_url)]) ∧
    ∀ d ∈ get_members raw, d.map Prod.fst = ["username", "avatar", "link"] := by
  refine ⟨by simp [get_members], fun i m h => ?_, fun d hd => ?_⟩
  · simp [get_members, h, transform_team_member]
  · rw [get_members, List.mem_map] at hd
    obtain ⟨m, _, rfl⟩ := hd
    rfl

/-- Witness for C7 at a one-member list. -/
theorem get_members_preserves_order_and_keys_witness :
    (get_members rawMemberEx)[0]? =
      some [("username", FieldVal.str "m"), ("avatar", FieldVal.str "um"),
            ("link", FieldVal.str "hm")] :=
  (get_members_preserves_order_and_keys rawMemberEx).2.1 0
    { login := "m", avatar_url := "um", html_url := "hm" } rfl

/-- Inner loop of the driver for one api entry: the generate calls made
for its generator names are exactly those whose name resolves, in order. -/
theorem driver_inner_map {γ δ : Type} (api : ApiEntry) (api_provider : String → Option γ)
    (output : δ) (gens : List String) :
    (gens.filterMap fun generator_name =>
        (api_provider generator_name).map fun generator =>
          ({ generator := generator, gen_name := generator_name, api := api,
             output := output } : GenCall γ δ)).map (fun c => (c.api, c.gen_name)) =
      (gens.map fun generator_name => (api, generator_name)).filter
        (fun q => (api_provider q.2).isSome) := by
  induction gens with
  | nil => rfl
  | cons g gs ih =>
      cases h : api_provider g <;>
        simp [List.filterMap_cons, List.filter_cons, h, ih]

/-- C6: the driver loop performs, in configuration order, exactly one
generate call for every (api entry, generator name) pair whose name the
provider resolves; pairs whose name does not resolve are skipped and do
not stop later pairs from being processed, and each performed call uses
the resolved generator and the configured output. -/
theorem driver_loop_skips_and_invokes {γ δ : Type} (apis : List ApiEntry)
    (api_provider : String → Option γ) (output : δ) :
    (driver_loop apis api_provider output).map (fun c => (c.api, c.gen_name)) =
      (config_pairs apis).filter (fun q => (api_provider q.2).isSome) ∧
    ∀ c ∈ driver_loop apis api_provider output,
      api_provider c.gen_name = some c.generator ∧ c.output = output := by
  constructor
  · induction apis with
    | nil => rfl
    | cons api rest ih =>
        simp only [driver_loop, config_pairs, List.flatMap_cons, List.map_append,
          List.filter_append] at ih ⊢
        rw [driver_inner_map, ih]
  · intro c hc
    rw [driver_loop, List.mem_flatMap] at hc
    obtain ⟨api, _, hc2⟩ := hc
    rw [List.mem_filterMap] at hc2
    obtain ⟨name, _, hc3⟩ := hc2
    cases h : api_provider name with
    | none =>
        rw [h] at hc3
        cases hc3
    | some g =>
        rw [h] at hc3
        injection hc3 with h2
        rw [← h2]
        exact ⟨h, rfl⟩

/-- Witness for C6: a configuration listing an unknown name before a known
one still performs the later call, and only that call. -/
theorem driver_loop_skips_and_invokes_witness :
    (driver_loop apisEx providerEx "out").map (fun c => (c.api, c.gen_name)) =
      [({ repository := "revanced/revanced-manager", generators := ["unknown", "badge"] }, "badge")] ∧
    providerEx "badge" = some "badgeGen" := by
  have h := driver_loop_skips_and_invokes apisEx providerEx "out"
  refine ⟨h.1.trans (by decide), ?_⟩
  exact (h.2 (GenCall.mk "badgeGen" "badge"
    (ApiEntry.mk "revanced/revanced-manager" ["unknown", "badge"]) "out") (by decide)).1
